import Mathlib

/-!
Shallow embedding of the SOC monitoring schedule core (schedule_app/models.py).

Conventions of the embedding:
* a calendar date is an integer counting days since 1970-01-01 (a Thursday),
  so Python's `date.weekday()` (Monday = 0) becomes `(d + 3) % 7`;
* an instant (`datetime`) is an integer counting minutes since that epoch;
* the float field `duration_hours` (the source rounds seconds/3600 to two
  decimal places) is an integer number of hundredths of an hour, so the
  thresholds 14 h and 24 h of the source become 1400 and 2400;
* the Django object store is a list of `(primary key, row)` pairs together
  with the next free key; `Meta.unique_together = ['date', 'monitoring_type']`
  becomes an explicit duplicate-key check in `Store.create`, mirroring the
  UNIQUE constraint the database enforces on INSERT;
* `transaction.atomic` blocks are modelled by returning `Except` with no
  state on error (full rollback); operations without a transaction return
  the partially committed state inside the error;
* free-text audit fields (notes, reasons) and timestamps other than
  `responded_at` carry no scheduling information and are omitted.
-/

/-- Python `date.weekday()`: Monday = 0.  1970-01-01 was a Thursday (3). -/
def weekday (d : Int) : Int := (d + 3) % 7

/-- `datetime.combine(day, time(hour, minute))` as minutes since the epoch. -/
def combine (day hour minute : Int) : Int := day * 1440 + hour * 60 + minute

/-- `round(delta.total_seconds() / 3600, 2)`: minutes converted to hundredths
of an hour, rounded to the nearest integer (half up). -/
def minutesToCentiHours (m : Int) : Int := (10 * m + 3) / 6

/-- The two monitoring type codes of `MonitoringType.MONITORING_TYPES`. -/
inductive MTCode
  | EM
  | DM
deriving DecidableEq, Repr

/-- `MonitoringType`: default window bounds and Monday extension offsets. -/
structure MonitoringType where
  code : MTCode
  default_start_hour : Int
  default_start_minute : Int
  default_end_hour : Int
  default_end_minute : Int
  monday_start_offset_hours : Int
  monday_end_offset_hours : Int
deriving DecidableEq, Repr

/-- `MonitoringType.get_time_window_for_date`: the absolute window for a date.
Non-Monday shifts run from the previous day at the default start time to the
given day at the default end time; Mondays push the start back by
`monday_start_offset_hours` (whole days plus residual hours, with a day
rollback when the residual makes the hour negative) and the end forward by
`monday_end_offset_hours` (with a day rollover at 24). -/
def MonitoringType.get_time_window_for_date (mt : MonitoringType) (target_date : Int) :
    Int × Int :=
  let s :=
    if weekday target_date = 0 ∧ mt.monday_start_offset_hours > 0 then
      let start_date := target_date - mt.monday_start_offset_hours / 24
      let start_hour := mt.default_start_hour - mt.monday_start_offset_hours % 24
      if start_hour < 0 then
        combine (start_date - 1) (start_hour + 24) mt.default_start_minute
      else
        combine start_date start_hour mt.default_start_minute
    else
      combine (target_date - 1) mt.default_start_hour mt.default_start_minute
  let e :=
    if weekday target_date = 0 ∧ mt.monday_end_offset_hours > 0 then
      let end_hour := mt.default_end_hour + mt.monday_end_offset_hours
      if end_hour ≥ 24 then
        combine (target_date + 1) (end_hour - 24) mt.default_end_minute
      else
        combine target_date end_hour mt.default_end_minute
    else
      combine target_date mt.default_end_hour mt.default_end_minute
  (s, e)

/-- `SchedulePattern`: reference date plus the stored EM/DM rotation tables. -/
structure SchedulePattern where
  reference_start_date : Int
  em_pattern : List Int
  dm_pattern : List Int
deriving DecidableEq, Repr

/-- `SchedulePattern.get_assignments_for_date`.  For dates before the
reference the source takes `days_diff = abs(days_diff)` and indexes the
stored tables at `-days_diff % pattern_length` (Python unary minus binds
tighter than `%`, and Python `%` is a floor modulo, as is Lean's `Int`
`%`), falling back to `days_diff % 4` formulas when a table is empty.
List indexing is total here via `getD`; every state considered in the
development keeps the index in range, as the source's does. -/
def SchedulePattern.get_assignments_for_date (p : SchedulePattern) (target_date : Int) :
    Int × Int :=
  let days_diff := target_date - p.reference_start_date
  if days_diff < 0 then
    let dd := |days_diff|
    let pattern_length : Int := if p.em_pattern ≠ [] then (p.em_pattern.length : Int) else 4
    let em_index : Int :=
      if p.em_pattern ≠ [] then p.em_pattern.getD ((-dd) % pattern_length).toNat 0
      else dd % 4
    let dm_index : Int :=
      if p.dm_pattern ≠ [] then p.dm_pattern.getD ((-dd) % pattern_length).toNat 0
      else (em_index + 3) % 4
    (em_index, dm_index)
  else
    if p.em_pattern ≠ [] ∧ (p.em_pattern.length : Int) > days_diff then
      (p.em_pattern.getD days_diff.toNat 0, p.dm_pattern.getD days_diff.toNat 0)
    else
      let em_index := days_diff % 4
      (em_index, (em_index + 3) % 4)

/-- `SchedulePattern.generate_pattern_sequence`: EM slot `day % 4` and DM slot
`(em + 3) % 4` for each day of the requested span. -/
def generate_pattern_sequence (days : Nat) : List Int × List Int :=
  ((List.range days).map (fun (d : Nat) => (d : Int) % 4),
   (List.range days).map (fun (d : Nat) => ((d : Int) % 4 + 3) % 4))

/-- `SchedulePattern.save`: auto-generates both 365-day tables when either
stored table is empty. -/
def SchedulePattern.save (p : SchedulePattern) : SchedulePattern :=
  if p.em_pattern = [] ∨ p.dm_pattern = [] then
    { p with
      em_pattern := (generate_pattern_sequence 365).1
      dm_pattern := (generate_pattern_sequence 365).2 }
  else p

/-- `MonitoringAssignment.STATUS_CHOICES`. -/
inductive AStatus
  | SCHEDULED
  | CONFIRMED
  | IN_PROGRESS
  | COMPLETED
  | CANCELLED
deriving DecidableEq, Repr

/-- One `MonitoringAssignment` row (scheduling fields). -/
structure MonitoringAssignment where
  date : Int
  monitoring_type : MonitoringType
  analyst : Nat
  window_start : Option Int
  window_end : Option Int
  duration_hours : Int
  is_monday_assignment : Bool
  is_extended_window : Bool
  status : AStatus
deriving DecidableEq, Repr

/-- The field recomputation of `MonitoringAssignment.save`: derive the
duration from the window (or derive the window itself from the monitoring
type when unset), recompute `is_monday_assignment` from the date, and set
`is_extended_window` on Mondays when the duration exceeds the kind-specific
threshold (14 h for EM, 24 h for DM). -/
def MonitoringAssignment.save (a : MonitoringAssignment) : MonitoringAssignment :=
  let a1 :=
    match a.window_start, a.window_end with
    | some ws, some we => { a with duration_hours := minutesToCentiHours (we - ws) }
    | _, _ =>
      let w := a.monitoring_type.get_time_window_for_date a.date
      { a with
        window_start := some w.1
        window_end := some w.2
        duration_hours := minutesToCentiHours (w.2 - w.1) }
  let a2 := { a1 with is_monday_assignment := weekday a1.date == 0 }
  if a2.is_monday_assignment then
    if a2.monitoring_type.code = MTCode.EM ∧ a2.duration_hours > 1400 then
      { a2 with is_extended_window := true }
    else if a2.monitoring_type.code = MTCode.DM ∧ a2.duration_hours > 2400 then
      { a2 with is_extended_window := true }
    else a2
  else a2

/-- The assignment store: `(primary key, row)` pairs plus the next free key. -/
structure Store where
  rows : List (Nat × MonitoringAssignment)
  next : Nat
deriving DecidableEq, Repr

/-- The `unique_together` key of an assignment row. -/
def keyOf (a : MonitoringAssignment) : Int × MTCode := (a.date, a.monitoring_type.code)

/-- The database error raised when an INSERT violates
`unique_together = ['date', 'monitoring_type']`. -/
inductive StoreError
  | duplicateKey
deriving DecidableEq, Repr

/-- Whether some row already holds the `(date, monitoring type)` key. -/
def Store.occupiedKey (st : Store) (d : Int) (c : MTCode) : Bool :=
  st.rows.any (fun r => r.2.date == d && r.2.monitoring_type.code == c)

/-- `MonitoringAssignment.objects.create(...)`: run the model's `save`
(which fills the derived fields) and INSERT, failing on a duplicate
`(date, monitoring_type)` key exactly as the UNIQUE constraint does. -/
def Store.create (st : Store) (a : MonitoringAssignment) :
    Except StoreError (Nat × Store) :=
  if st.occupiedKey a.date a.monitoring_type.code then .error .duplicateKey
  else .ok (st.next, { rows := st.rows ++ [(st.next, a.save)], next := st.next + 1 })

/-- Fetch a row by primary key. -/
def Store.find (st : Store) (id : Nat) : Option MonitoringAssignment :=
  (st.rows.find? (fun r => r.1 == id)).map (fun r => r.2)

/-- Mutate the fields of an existing row with `f` and call `save` on it,
as `obj.field = ...; obj.save()` does. -/
def Store.save_existing (st : Store) (id : Nat)
    (f : MonitoringAssignment → MonitoringAssignment) : Store :=
  { st with rows := st.rows.map (fun r => if r.1 == id then (r.1, (f r.2).save) else r) }

/-- `MonitoringAssignment.objects.filter(date=d).exists()`. -/
def Store.occupied (st : Store) (d : Int) : Bool :=
  st.rows.any (fun r => r.2.date == d)

/-- All rows for one date. -/
def rowsAtDate (st : Store) (d : Int) : List (Nat × MonitoringAssignment) :=
  st.rows.filter (fun r => r.2.date == d)

/-- The uniqueness invariant backing `unique_together`: no two rows share a
`(date, monitoring type)` key. -/
def Store.uniqueKeys (st : Store) : Prop :=
  (st.rows.map (fun r => keyOf r.2)).Nodup

/-- Every stored row's `is_monday_assignment` flag matches its date. -/
def Store.mondayInv (st : Store) : Prop :=
  ∀ r ∈ st.rows, (r.2.is_monday_assignment = true ↔ weekday r.2.date = 0)

/-- `ShiftSwapRequest.STATUS_CHOICES`. -/
inductive SwapStatus
  | PENDING
  | APPROVED
  | REJECTED
  | CANCELLED
  | EXPIRED
deriving DecidableEq, Repr

/-- One `ShiftSwapRequest` row (scheduling fields). -/
structure ShiftSwapRequest where
  original_assignment : Nat
  requested_analyst : Nat
  status : SwapStatus
  reciprocal_assignment : Option Nat
  requested_by : Nat
  approved_by : Option Nat
  responded_at : Option Int
deriving DecidableEq, Repr

/-- Failures of `approve_swap`: the `ValueError` on a non-pending request,
a broken foreign key, or the database duplicate-key error. -/
inductive SwapError
  | notPending
  | originalMissing
  | duplicateKey
deriving DecidableEq, Repr

/-- The field mutation `original_assignment.analyst = requested_analyst`. -/
def set_analyst (an : Nat) (a : MonitoringAssignment) : MonitoringAssignment :=
  { a with analyst := an }

/-- `ShiftSwapRequest.approve_swap`: reject non-pending requests, create the
reciprocal assignment (same date, kind and window, status CONFIRMED, analyst
the requested analyst), reassign the original row to the requested analyst,
and mark the request approved with responder and timestamp.  The reciprocal
INSERT carries the same `(date, monitoring_type)` key as the still-present
original row, so `Store.create` refuses it; the create is the first write,
so nothing is committed on failure. -/
def ShiftSwapRequest.approve_swap (req : ShiftSwapRequest) (st : Store)
    (approved_by_analyst : Nat) (now : Int) :
    Except SwapError (Nat × ShiftSwapRequest × Store) :=
  if req.status ≠ SwapStatus.PENDING then .error .notPending
  else
    match st.find req.original_assignment with
    | none => .error .originalMissing
    | some orig =>
      match st.create
          { date := orig.date
            monitoring_type := orig.monitoring_type
            analyst := req.requested_analyst
            window_start := orig.window_start
            window_end := orig.window_end
            duration_hours := 0
            is_monday_assignment := false
            is_extended_window := false
            status := AStatus.CONFIRMED } with
      | .error _ => .error .duplicateKey
      | .ok (rid, st1) =>
        let st2 := st1.save_existing req.original_assignment (set_analyst req.requested_analyst)
        .ok (rid,
          { req with
            reciprocal_assignment := some rid
            approved_by := some approved_by_analyst
            status := SwapStatus.APPROVED
            responded_at := some now }, st2)

/-- `LeaveRequest.STATUS_CHOICES`. -/
inductive LeaveStatus
  | PENDING
  | APPROVED
  | REJECTED
  | CANCELLED
deriving DecidableEq, Repr

/-- One `LeaveRequest` row (scheduling fields). -/
structure LeaveRequest where
  analyst : Nat
  start_date : Int
  end_date : Int
  status : LeaveStatus
  covered_by : Option Nat
  auto_adjust_pattern : Bool
  affected_assignments : List Nat
  approved_by : Option Nat
deriving DecidableEq, Repr

/-- Failures of `approve_leave`. -/
inductive LeaveError
  | notPending
  | duplicateKey
deriving DecidableEq, Repr

/-- `LeaveRequest.assess_impact`: the analyst's SCHEDULED or CONFIRMED
assignments inside `[start_date, end_date]`; replaces the stored affected
set and returns the count. -/
def LeaveRequest.assess_impact (lr : LeaveRequest) (st : Store) : Nat × LeaveRequest :=
  let ids := (st.rows.filter (fun r =>
    r.2.analyst == lr.analyst &&
    decide (lr.start_date ≤ r.2.date) && decide (r.2.date ≤ lr.end_date) &&
    (r.2.status == AStatus.SCHEDULED || r.2.status == AStatus.CONFIRMED))).map (fun r => r.1)
  (ids.length, { lr with affected_assignments := ids })

/-- The field mutation cancelling a covered assignment. -/
def set_cancelled (a : MonitoringAssignment) : MonitoringAssignment :=
  { a with status := AStatus.CANCELLED }

/-- The loop of `LeaveRequest._arrange_coverage`: for each affected row,
create a covering assignment (same date, kind, window and Monday flags,
status CONFIRMED, analyst the covering analyst) and then cancel the
original.  Each INSERT shares its `(date, monitoring_type)` key with the
affected row itself, so `Store.create` refuses it; the error carries the
state committed so far, since the source wraps none of this in a
transaction. -/
def arrange_go (cov : Nat) : List Nat → Store → Except (LeaveError × Store) Store
  | [], st => .ok st
  | id :: rest, st =>
    match st.find id with
    | none => arrange_go cov rest st
    | some a =>
      match st.create
          { date := a.date
            monitoring_type := a.monitoring_type
            analyst := cov
            window_start := a.window_start
            window_end := a.window_end
            duration_hours := 0
            is_monday_assignment := a.is_monday_assignment
            is_extended_window := a.is_extended_window
            status := AStatus.CONFIRMED } with
      | .error _ => .error (.duplicateKey, st)
      | .ok (_, st1) => arrange_go cov rest (st1.save_existing id set_cancelled)

/-- `LeaveRequest._arrange_coverage` over the stored affected set.  The guard
in `approve_leave` ensures `covered_by` is set when this runs. -/
def LeaveRequest.arrange_coverage (lr : LeaveRequest) (st : Store) :
    Except (LeaveError × Store) Store :=
  arrange_go (lr.covered_by.getD 0) lr.affected_assignments st

/-- `LeaveRequest.approve_leave`: reject non-pending requests; reassess the
impact; record the covering analyst when given; mark the request approved
(committed at this point — there is no enclosing transaction); then, when
auto-adjust is on and a covering analyst is set, arrange coverage.  Both
outcomes carry the resulting request and store, the error outcome carrying
the partially committed state. -/
def LeaveRequest.approve_leave (lr : LeaveRequest) (st : Store)
    (approved_by_analyst : Nat) (coverage_analyst : Option Nat) :
    Except (LeaveError × LeaveRequest × Store) (Nat × LeaveRequest × Store) :=
  if lr.status ≠ LeaveStatus.PENDING then .error (.notPending, lr, st)
  else
    let ar := lr.assess_impact st
    let lr1 := ar.2
    let lr2 :=
      match coverage_analyst with
      | some c => { lr1 with covered_by := some c }
      | none => lr1
    let lr3 := { lr2 with approved_by := some approved_by_analyst, status := LeaveStatus.APPROVED }
    if lr3.auto_adjust_pattern && lr3.covered_by.isSome then
      match lr3.arrange_coverage st with
      | .ok st1 => .ok (ar.1, lr3, st1)
      | .error es => .error (es.1, lr3, es.2)
    else .ok (ar.1, lr3, st)

/-- `Analyst`: rotation slot and active flag. -/
structure Analyst where
  id : Nat
  pattern_position : Int
  is_active : Bool
deriving DecidableEq, Repr

/-- Failures of `generate_schedule`: the two `ValueError`s for missing
reference data, plus the database duplicate-key error. -/
inductive GenError
  | analystsNotFound
  | typesNotConfigured
  | duplicateKey
deriving DecidableEq, Repr

/-- The loop body of `ScheduleGenerator.generate_schedule`, with the day
count as fuel.  A date with any existing assignment is skipped entirely;
otherwise the pattern slots are resolved to the first active analyst at
each position, the windows computed, and two CONFIRMED assignments
created. -/
def generate_go (pat : SchedulePattern) (analysts : List Analyst)
    (types : List MonitoringType) :
    Nat → Int → Store → Nat → Except GenError (Nat × Store)
  | 0, _, st, created => .ok (created, st)
  | fuel + 1, current_date, st, created =>
    if st.occupied current_date then
      generate_go pat analysts types fuel (current_date + 1) st created
    else
      let idx := pat.get_assignments_for_date current_date
      match analysts.find? (fun a => a.pattern_position == idx.1 && a.is_active),
            analysts.find? (fun a => a.pattern_position == idx.2 && a.is_active) with
      | some em_analyst, some dm_analyst =>
        match types.find? (fun t => t.code == MTCode.EM),
              types.find? (fun t => t.code == MTCode.DM) with
        | some em_type, some dm_type =>
          let emw := em_type.get_time_window_for_date current_date
          let dmw := dm_type.get_time_window_for_date current_date
          match st.create
              { date := current_date
                monitoring_type := em_type
                analyst := em_analyst.id
                window_start := some emw.1
                window_end := some emw.2
                duration_hours := 0
                is_monday_assignment := false
                is_extended_window := false
                status := AStatus.CONFIRMED } with
          | .error _ => .error .duplicateKey
          | .ok (_, st1) =>
            match st1.create
                { date := current_date
                  monitoring_type := dm_type
                  analyst := dm_analyst.id
                  window_start := some dmw.1
                  window_end := some dmw.2
                  duration_hours := 0
                  is_monday_assignment := false
                  is_extended_window := false
                  status := AStatus.CONFIRMED } with
            | .error _ => .error .duplicateKey
            | .ok (_, st2) =>
              generate_go pat analysts types fuel (current_date + 1) st2 (created + 1 + 1)
        | _, _ => .error .typesNotConfigured
      | _, _ => .error .analystsNotFound

/-- `ScheduleGenerator.generate_schedule` over `[start_date, end_date]`
inclusive.  The source wraps the run in `transaction.atomic`, so an error
leaves no partial state: the error outcome carries nothing.  (The
generator's own `last_generated` bookkeeping field is not modelled.) -/
def generate_schedule (pat : SchedulePattern) (analysts : List Analyst)
    (types : List MonitoringType) (start_date end_date : Int) (st : Store) :
    Except GenError (Nat × Store) :=
  generate_go pat analysts types (end_date + 1 - start_date).toNat start_date st 0

/-- The store visible after a `create` call, the rejected call leaving the
store as it was. -/
def createResultStore (st : Store) (r : Except StoreError (Nat × Store)) : Store :=
  match r with
  | .ok x => x.2
  | .error _ => st

/-- The store visible after `generate_schedule` (errors roll back). -/
def genResultStore (st : Store) (r : Except GenError (Nat × Store)) : Store :=
  match r with
  | .ok x => x.2
  | .error _ => st

/-- The store visible after `approve_swap` (every failure precedes the
first write). -/
def swapResultStore (st : Store)
    (r : Except SwapError (Nat × ShiftSwapRequest × Store)) : Store :=
  match r with
  | .ok x => x.2.2
  | .error _ => st

/-- The store visible after `approve_leave` (the error carries the state
committed before the failure). -/
def leaveResultStore (_st : Store)
    (r : Except (LeaveError × LeaveRequest × Store) (Nat × LeaveRequest × Store)) : Store :=
  match r with
  | .ok x => x.2.2
  | .error e => e.2.2

/-- A pattern whose stored tables were produced by
`generate_pattern_sequence`, as `SchedulePattern.save` stores them. -/
def patternOf (ref : Int) (days : Nat) : SchedulePattern :=
  ⟨ref, (generate_pattern_sequence days).1, (generate_pattern_sequence days).2⟩

/-- The deployed EM monitoring type: 17:00 to 07:00, Monday start pushed
back 58 hours (create_initial_data). -/
def emT : MonitoringType :=
  { code := MTCode.EM, default_start_hour := 17, default_start_minute := 0,
    default_end_hour := 7, default_end_minute := 0,
    monday_start_offset_hours := 58, monday_end_offset_hours := 0 }

/-- The deployed DM monitoring type: 17:00 to 17:00, Monday start pushed
back 48 hours (create_initial_data). -/
def dmT : MonitoringType :=
  { code := MTCode.DM, default_start_hour := 17, default_start_minute := 0,
    default_end_hour := 17, default_end_minute := 0,
    monday_start_offset_hours := 48, monday_end_offset_hours := 0 }

/-- A concrete EM assignment for Tuesday 2024-01-09 (day 19731). -/
def a0 : MonitoringAssignment :=
  { date := 19731, monitoring_type := emT, analyst := 1,
    window_start := some (emT.get_time_window_for_date 19731).1,
    window_end := some (emT.get_time_window_for_date 19731).2,
    duration_hours := 0, is_monday_assignment := false, is_extended_window := false,
    status := AStatus.CONFIRMED }

/-- A store holding just that assignment under key 0. -/
def stC2 : Store := { rows := [(0, a0.save)], next := 1 }

/-- A pending swap request asking analyst 2 to take over assignment 0. -/
def reqC2 : ShiftSwapRequest :=
  { original_assignment := 0, requested_analyst := 2, status := SwapStatus.PENDING,
    reciprocal_assignment := none, requested_by := 1, approved_by := none,
    responded_at := none }

/-- The same request already approved (not pending). -/
def reqC9 : ShiftSwapRequest :=
  { original_assignment := 0, requested_analyst := 2, status := SwapStatus.APPROVED,
    reciprocal_assignment := none, requested_by := 1, approved_by := none,
    responded_at := none }

/-- A pending leave request of analyst 1 covering days 19730 to 19732. -/
def lrC4 : LeaveRequest :=
  { analyst := 1, start_date := 19730, end_date := 19732, status := LeaveStatus.PENDING,
    covered_by := none, auto_adjust_pattern := true, affected_assignments := [],
    approved_by := none }

/-- The request state `approve_leave` commits before the coverage INSERT
fails: approved, coverage recorded, one affected assignment. -/
def lrC4after : LeaveRequest :=
  { analyst := 1, start_date := 19730, end_date := 19732, status := LeaveStatus.APPROVED,
    covered_by := some 2, auto_adjust_pattern := true, affected_assignments := [0],
    approved_by := some 9 }

/-- The active pattern in its stored form: saved with empty tables, so both
365-day tables are auto-generated; reference date 19723 = Monday
2024-01-01. -/
def patternC1 : SchedulePattern :=
  SchedulePattern.save { reference_start_date := 19723, em_pattern := [], dm_pattern := [] }

/-- A pattern row with empty stored tables (pure formula paths). -/
def patC5 : SchedulePattern := ⟨19723, [], []⟩

/-- Four active analysts on rotation slots 0 to 3. -/
def anC5 : List Analyst := [⟨10, 0, true⟩, ⟨11, 1, true⟩, ⟨12, 2, true⟩, ⟨13, 3, true⟩]

/-- Both configured monitoring types. -/
def tyC5 : List MonitoringType := [emT, dmT]

/-- An assignment already present for Monday 2024-01-01 (day 19723). -/
def rowC5 : MonitoringAssignment :=
  { date := 19723, monitoring_type := emT, analyst := 10,
    window_start := some 0, window_end := some 840,
    duration_hours := 0, is_monday_assignment := false, is_extended_window := false,
    status := AStatus.CONFIRMED }

/-- A store already populated at day 19723. -/
def st0C5 : Store := { rows := [(0, rowC5.save)], next := 1 }

/-- The store produced by generating days 19723 to 19724 over `st0C5`. -/
def st1C5 : Store :=
  match generate_schedule patC5 anC5 tyC5 19723 19724 st0C5 with
  | .ok x => x.2
  | .error _ => st0C5

/-- The EM assignment the generator saves for Monday 2024-01-08 (day
19730) with the computed extended window. -/
def assignC7 : MonitoringAssignment :=
  { date := 19730, monitoring_type := emT, analyst := 0,
    window_start := some (emT.get_time_window_for_date 19730).1,
    window_end := some (emT.get_time_window_for_date 19730).2,
    duration_hours := 0, is_monday_assignment := false, is_extended_window := false,
    status := AStatus.CONFIRMED }

/-- An EM assignment on Tuesday 2024-01-09 whose window spans 20 hours
(17:00 on 19730 to 13:00 on 19731). -/
def aC8 : MonitoringAssignment :=
  { date := 19731, monitoring_type := emT, analyst := 1,
    window_start := some (combine 19730 17 0), window_end := some (combine 19731 13 0),
    duration_hours := 0, is_monday_assignment := false, is_extended_window := false,
    status := AStatus.SCHEDULED }

/-- The empty store. -/
def stEmpty : Store := { rows := [], next := 0 }

/-- The store after creating `a0` in the empty store. -/
def stC10 : Store := { rows := [(0, a0.save)], next := 1 }

theorem MonitoringAssignment.save_date (a : MonitoringAssignment) : a.save.date = a.date := by
  unfold MonitoringAssignment.save
  dsimp only
  repeat' split
  all_goals rfl

theorem MonitoringAssignment.save_mtype (a : MonitoringAssignment) :
    a.save.monitoring_type = a.monitoring_type := by
  unfold MonitoringAssignment.save
  dsimp only
  repeat' split
  all_goals rfl

theorem MonitoringAssignment.save_monday_eq (a : MonitoringAssignment) :
    a.save.is_monday_assignment = (weekday a.date == 0) := by
  unfold MonitoringAssignment.save
  dsimp only
  repeat' split
  all_goals rfl

theorem save_key (a : MonitoringAssignment) : keyOf a.save = keyOf a := by
  unfold keyOf
  rw [MonitoringAssignment.save_date, MonitoringAssignment.save_mtype]

theorem MonitoringAssignment.save_monday_iff (a : MonitoringAssignment) :
    (a.save.is_monday_assignment = true ↔ weekday a.save.date = 0) := by
  rw [MonitoringAssignment.save_date, MonitoringAssignment.save_monday_eq]
  simp

theorem Store.create_ok {st : Store} {a : MonitoringAssignment} {id : Nat} {st' : Store}
    (h : st.create a = .ok (id, st')) :
    st.occupiedKey a.date a.monitoring_type.code = false ∧
    id = st.next ∧ st'.rows = st.rows ++ [(st.next, a.save)] ∧ st'.next = st.next + 1 := by
  unfold Store.create at h
  split at h
  · exact absurd h (by simp)
  · next hocc =>
    simp only [Except.ok.injEq, Prod.mk.injEq] at h
    obtain ⟨h1, h2⟩ := h
    subst h1
    subst h2
    exact ⟨by simpa using hocc, rfl, rfl, rfl⟩

theorem Store.occupiedKey_of_mem {st : Store} {r : Nat × MonitoringAssignment}
    (hr : r ∈ st.rows) : st.occupiedKey r.2.date r.2.monitoring_type.code = true := by
  simp only [Store.occupiedKey, List.any_eq_true]
  exact ⟨r, hr, by simp⟩

theorem create_pres_unique {st : Store} {a : MonitoringAssignment} {id : Nat} {st' : Store}
    (h : st.uniqueKeys) (hc : st.create a = .ok (id, st')) : st'.uniqueKeys := by
  obtain ⟨hocc, -, hrows, -⟩ := Store.create_ok hc
  unfold Store.uniqueKeys at h ⊢
  rw [hrows, List.map_append]
  simp only [List.map_cons, List.map_nil]
  rw [List.nodup_append]
  refine ⟨h, List.nodup_singleton _, ?_⟩
  intro k hk hk2
  simp only [List.mem_singleton] at hk2
  subst hk2
  rw [List.mem_map] at hk
  obtain ⟨r, hr, hkey⟩ := hk
  rw [save_key] at hkey
  have hx := Store.occupiedKey_of_mem hr
  unfold keyOf at hkey
  have hd : r.2.date = a.date := congrArg Prod.fst hkey
  have hcd : r.2.monitoring_type.code = a.monitoring_type.code := congrArg Prod.snd hkey
  rw [hd, hcd] at hx
  rw [hx] at hocc
  exact absurd hocc (by simp)

theorem create_pres_monday {st : Store} {a : MonitoringAssignment} {id : Nat} {st' : Store}
    (h : st.mondayInv) (hc : st.create a = .ok (id, st')) : st'.mondayInv := by
  obtain ⟨-, -, hrows, -⟩ := Store.create_ok hc
  intro r hr
  rw [hrows, List.mem_append] at hr
  rcases hr with hr | hr
  · exact h r hr
  · simp only [List.mem_singleton] at hr
    subst hr
    exact MonitoringAssignment.save_monday_iff a

theorem save_existing_pres_monday {st : Store} (h : st.mondayInv) (id : Nat)
    (f : MonitoringAssignment → MonitoringAssignment) :
    (st.save_existing id f).mondayInv := by
  intro r hr
  unfold Store.save_existing at hr
  simp only [List.mem_map] at hr
  obtain ⟨x, hx, hxr⟩ := hr
  by_cases hid : x.1 == id
  · rw [if_pos hid] at hxr
    subst hxr
    exact MonitoringAssignment.save_monday_iff (f x.2)
  · rw [if_neg hid] at hxr
    subst hxr
    exact h x hx

theorem save_existing_keys (st : Store) (id : Nat)
    (f : MonitoringAssignment → MonitoringAssignment)
    (hf : ∀ x, keyOf (f x) = keyOf x) :
    (st.save_existing id f).rows.map (fun r => keyOf r.2) =
      st.rows.map (fun r => keyOf r.2) := by
  unfold Store.save_existing
  rw [List.map_map]
  apply List.map_congr_left
  intro r _
  by_cases hid : r.1 == id <;> simp [Function.comp, hid, save_key, hf]

theorem save_existing_pres_unique {st : Store} (h : st.uniqueKeys) (id : Nat)
    (f : MonitoringAssignment → MonitoringAssignment)
    (hf : ∀ x, keyOf (f x) = keyOf x) :
    (st.save_existing id f).uniqueKeys := by
  unfold Store.uniqueKeys at h ⊢
  rw [save_existing_keys st id f hf]
  exact h

theorem set_analyst_key (an : Nat) (a : MonitoringAssignment) :
    keyOf (set_analyst an a) = keyOf a := rfl

theorem set_cancelled_key (a : MonitoringAssignment) :
    keyOf (set_cancelled a) = keyOf a := rfl

theorem generate_go_pres (P : Store → Prop) (pat : SchedulePattern) (an : List Analyst)
    (ty : List MonitoringType)
    (hc : ∀ st a id st', P st → Store.create st a = .ok (id, st') → P st') :
    ∀ (fuel : Nat) (cur : Int) (st : Store) (cr n : Nat) (st' : Store),
      P st → generate_go pat an ty fuel cur st cr = .ok (n, st') → P st' := by
  intro fuel
  induction fuel with
  | zero =>
    intro cur st cr n st' hP h
    simp only [generate_go, Except.ok.injEq, Prod.mk.injEq] at h
    rw [← h.2]
    exact hP
  | succ fuel ih =>
    intro cur st cr n st' hP h
    simp only [generate_go] at h
    split at h
    · exact ih _ _ _ _ _ hP h
    · split at h
      · split at h
        · split at h
          · exact absurd h (by simp)
          · split at h
            · exact absurd h (by simp)
            · rename_i x1 rid1 st1 hcr1 x2 rid2 st2 hcr2
              exact ih _ _ _ _ _ (hc _ _ _ _ (hc _ _ _ _ hP hcr1) hcr2) h
        · exact absurd h (by simp)
      · exact absurd h (by simp)

theorem generate_go_mono (pat : SchedulePattern) (an : List Analyst)
    (ty : List MonitoringType) :
    ∀ (fuel : Nat) (cur : Int) (st : Store) (cr n : Nat) (st' : Store),
      generate_go pat an ty fuel cur st cr = .ok (n, st') →
      ∀ r ∈ st.rows, r ∈ st'.rows := by
  intro fuel
  induction fuel with
  | zero =>
    intro cur st cr n st' h r hr
    simp only [generate_go, Except.ok.injEq, Prod.mk.injEq] at h
    rw [← h.2]
    exact hr
  | succ fuel ih =>
    intro cur st cr n st' h r hr
    simp only [generate_go] at h
    split at h
    · exact ih _ _ _ _ _ h r hr
    · split at h
      · split at h
        · split at h
          · exact absurd h (by simp)
          · split at h
            · exact absurd h (by simp)
            · rename_i x1 rid1 st1 hcr1 x2 rid2 st2 hcr2
              obtain ⟨-, -, hrows1, -⟩ := Store.create_ok hcr1
              obtain ⟨-, -, hrows2, -⟩ := Store.create_ok hcr2
              refine ih _ _ _ _ _ h r ?_
              rw [hrows2, hrows1]
              exact List.mem_append_left _ (List.mem_append_left _ hr)
        · exact absurd h (by simp)
      · exact absurd h (by simp)

theorem Store.occupied_of_mem {st : Store} {r : Nat × MonitoringAssignment}
    (hr : r ∈ st.rows) : st.occupied r.2.date = true := by
  simp only [Store.occupied, List.any_eq_true]
  exact ⟨r, hr, by simp⟩

theorem occupied_mono {st st' : Store} (hsub : ∀ r ∈ st.rows, r ∈ st'.rows) {d : Int}
    (h : st.occupied d = true) : st'.occupied d = true := by
  simp only [Store.occupied, List.any_eq_true] at h ⊢
  obtain ⟨r, hr, hd⟩ := h
  exact ⟨r, hsub r hr, hd⟩

theorem Store.create_mono {st : Store} {a : MonitoringAssignment} {id : Nat} {st' : Store}
    (hc : st.create a = .ok (id, st')) : ∀ r ∈ st.rows, r ∈ st'.rows := by
  obtain ⟨-, -, hrows, -⟩ := Store.create_ok hc
  intro r hr
  rw [hrows]
  exact List.mem_append_left _ hr

theorem Store.create_occupied {st : Store} {a : MonitoringAssignment} {id : Nat} {st' : Store}
    (hc : st.create a = .ok (id, st')) : st'.occupied a.date = true := by
  obtain ⟨-, -, hrows, -⟩ := Store.create_ok hc
  have hmem : (st.next, a.save) ∈ st'.rows := by
    rw [hrows]
    simp
  have := Store.occupied_of_mem hmem
  simpa [MonitoringAssignment.save_date] using this

theorem generate_go_occupied (pat : SchedulePattern) (an : List Analyst)
    (ty : List MonitoringType) :
    ∀ (fuel : Nat) (cur : Int) (st : Store) (cr n : Nat) (st' : Store),
      generate_go pat an ty fuel cur st cr = .ok (n, st') →
      ∀ i : Nat, i < fuel → st'.occupied (cur + i) = true := by
  intro fuel
  induction fuel with
  | zero =>
    intro cur st cr n st' h i hi
    exact absurd hi (by omega)
  | succ fuel ih =>
    intro cur st cr n st' h i hi
    simp only [generate_go] at h
    split at h
    · rename_i hocc
      match i with
      | 0 =>
        have := occupied_mono (generate_go_mono pat an ty _ _ _ _ _ _ h) hocc
        simpa using this
      | i + 1 =>
        have := ih _ _ _ _ _ h i (by omega)
        have harith : (cur + 1) + (i : Int) = cur + ((i : Nat) + 1 : Nat) := by push_cast; ring
        rwa [harith] at this
    · split at h
      · split at h
        · split at h
          · exact absurd h (by simp)
          · split at h
            · exact absurd h (by simp)
            · rename_i x1 rid1 st1 hcr1 x2 rid2 st2 hcr2
              have h1 : st1.occupied cur = true := Store.create_occupied hcr1
              have h2 : st2.occupied cur = true :=
                occupied_mono (Store.create_mono hcr2) h1
              match i with
              | 0 =>
                have := occupied_mono (generate_go_mono pat an ty _ _ _ _ _ _ h) h2
                simpa using this
              | i + 1 =>
                have := ih _ _ _ _ _ h i (by omega)
                have harith : (cur + 1) + (i : Int) = cur + ((i : Nat) + 1 : Nat) := by
                  push_cast; ring
                rwa [harith] at this
        · exact absurd h (by simp)
      · exact absurd h (by simp)


theorem rowsAtDate_create {st : Store} {a : MonitoringAssignment} {id : Nat} {st' : Store}
    (hc : st.create a = .ok (id, st')) {d : Int} (hd : a.date ≠ d) :
    rowsAtDate st' d = rowsAtDate st d := by
  obtain ⟨-, -, hrows, -⟩ := Store.create_ok hc
  unfold rowsAtDate
  rw [hrows, List.filter_append]
  have : ((a.save.date == d) : Bool) = false := by
    rw [MonitoringAssignment.save_date]
    simpa using hd
  simp [this]

theorem generate_go_rowsAt (pat : SchedulePattern) (an : List Analyst)
    (ty : List MonitoringType) (d : Int) :
    ∀ (fuel : Nat) (cur : Int) (st : Store) (cr n : Nat) (st' : Store),
      st.occupied d = true →
      generate_go pat an ty fuel cur st cr = .ok (n, st') →
      rowsAtDate st' d = rowsAtDate st d := by
  intro fuel
  induction fuel with
  | zero =>
    intro cur st cr n st' hd h
    simp only [generate_go, Except.ok.injEq, Prod.mk.injEq] at h
    rw [← h.2]
  | succ fuel ih =>
    intro cur st cr n st' hd h
    simp only [generate_go] at h
    split at h
    · exact ih _ _ _ _ _ hd h
    · rename_i hocc
      split at h
      · split at h
        · split at h
          · exact absurd h (by simp)
          · split at h
            · exact absurd h (by simp)
            · rename_i x1 rid1 st1 hcr1 x2 rid2 st2 hcr2
              have hne : cur ≠ d := by
                intro hcd
                rw [hcd] at hocc
                exact hocc hd
              have e1 : rowsAtDate st1 d = rowsAtDate st d := rowsAtDate_create hcr1 hne
              have e2 : rowsAtDate st2 d = rowsAtDate st1 d := rowsAtDate_create hcr2 hne
              have hd2 : st2.occupied d = true :=
                occupied_mono (Store.create_mono hcr2)
                  (occupied_mono (Store.create_mono hcr1) hd)
              rw [ih _ _ _ _ _ hd2 h, e2, e1]
        · exact absurd h (by simp)
      · exact absurd h (by simp)

theorem generate_go_skip_all (pat : SchedulePattern) (an : List Analyst)
    (ty : List MonitoringType) :
    ∀ (fuel : Nat) (cur : Int) (st : Store) (cr : Nat),
      (∀ i : Nat, i < fuel → st.occupied (cur + i) = true) →
      generate_go pat an ty fuel cur st cr = .ok (cr, st) := by
  intro fuel
  induction fuel with
  | zero =>
    intro cur st cr hall
    simp [generate_go]
  | succ fuel ih =>
    intro cur st cr hall
    have h0 : st.occupied cur = true := by simpa using hall 0 (by omega)
    simp only [generate_go, h0, if_true]
    exact ih (cur + 1) st cr (fun i hi => by
      have := hall (i + 1) (by omega)
      have harith : cur + ((i : Nat) + 1 : Nat) = (cur + 1) + (i : Int) := by push_cast; ring
      rwa [harith] at this)

theorem approve_swap_pres (P : Store → Prop)
    (hc : ∀ st a id st', P st → Store.create st a = .ok (id, st') → P st')
    (hu : ∀ st id an, P st → P (Store.save_existing st id (set_analyst an)))
    (req : ShiftSwapRequest) (st : Store) (ab : Nat) (now : Int) (hP : P st) :
    P (swapResultStore st (req.approve_swap st ab now)) := by
  unfold ShiftSwapRequest.approve_swap
  split
  · exact hP
  · split
    · exact hP
    · split
      · exact hP
      · rename_i orig horig x rid st1 hcr
        exact hu _ _ _ (hc _ _ _ _ hP hcr)

theorem arrange_go_pres (P : Store → Prop)
    (hc : ∀ st a id st', P st → Store.create st a = .ok (id, st') → P st')
    (hu : ∀ st id, P st → P (Store.save_existing st id set_cancelled))
    (cov : Nat) :
    ∀ (ids : List Nat) (st : Store), P st →
      (∀ st', arrange_go cov ids st = .ok st' → P st') ∧
      (∀ es, arrange_go cov ids st = .error es → P es.2) := by
  intro ids
  induction ids with
  | nil =>
    intro st hP
    constructor
    · intro st' h
      simp only [arrange_go, Except.ok.injEq] at h
      rw [← h]
      exact hP
    · intro es h
      exact absurd h (by simp [arrange_go])
  | cons id rest ih =>
    intro st hP
    constructor
    · intro st' h
      simp only [arrange_go] at h
      split at h
      · exact (ih st hP).1 st' h
      · split at h
        · exact absurd h (by simp)
        · rename_i a hfind x rid st1 hcr
          exact (ih _ (hu _ _ (hc _ _ _ _ hP hcr))).1 st' h
    · intro es h
      simp only [arrange_go] at h
      split at h
      · exact (ih st hP).2 es h
      · split at h
        · simp only [Except.error.injEq] at h
          rw [← h]
          exact hP
        · rename_i a hfind x rid st1 hcr
          exact (ih _ (hu _ _ (hc _ _ _ _ hP hcr))).2 es h

theorem approve_leave_pres (P : Store → Prop)
    (hc : ∀ st a id st', P st → Store.create st a = .ok (id, st') → P st')
    (hu : ∀ st id, P st → P (Store.save_existing st id set_cancelled))
    (lr : LeaveRequest) (st : Store) (ab : Nat) (cov : Option Nat) (hP : P st) :
    P (leaveResultStore st (lr.approve_leave st ab cov)) := by
  unfold LeaveRequest.approve_leave
  split
  · exact hP
  · dsimp only
    split
    · split
      · rename_i st1 harr
        exact (arrange_go_pres P hc hu _ _ _ hP).1 st1 harr
      · rename_i es harr
        exact (arrange_go_pres P hc hu _ _ _ hP).2 es harr
    · exact hP

theorem create_unique_closure :
    ∀ (st : Store) (a : MonitoringAssignment) (id : Nat) (st' : Store),
      st.uniqueKeys → Store.create st a = .ok (id, st') → st'.uniqueKeys :=
  fun _ _ _ _ h hc => create_pres_unique h hc

theorem getD_range_map (f : Nat → Int) (days i : Nat) (h : i < days) :
    ((List.range days).map f).getD i 0 = f i := by
  rw [List.getD_eq_getElem?_getD, List.getElem?_map, List.getElem?_range h]
  rfl

theorem get_assignments_patternOf (ref : Int) (days : Nat) (t : Int) :
    ∃ k : Int, (patternOf ref days).get_assignments_for_date t =
      (k % 4, (k % 4 + 3) % 4) := by
  unfold patternOf SchedulePattern.get_assignments_for_date generate_pattern_sequence
  dsimp only
  cases days with
  | zero =>
    simp only [List.range_zero, List.map_nil, ne_eq, not_true_eq_false, if_false,
      List.length_nil]
    split
    · exact ⟨|t - ref|, rfl⟩
    · exact ⟨t - ref, rfl⟩
  | succ m =>
    have hlen : ((List.range (m + 1)).map (fun (d : Nat) => (d : Int) % 4)).length
        = m + 1 := by
      rw [List.length_map, List.length_range]
    have hlen2 : ((List.range (m + 1)).map (fun (d : Nat) => ((d : Int) % 4 + 3) % 4)).length
        = m + 1 := by
      rw [List.length_map, List.length_range]
    have hne : (List.range (m + 1)).map (fun (d : Nat) => (d : Int) % 4) ≠ [] := by
      intro hcon
      rw [hcon] at hlen
      exact absurd hlen (by simp)
    have hne2 : (List.range (m + 1)).map (fun (d : Nat) => ((d : Int) % 4 + 3) % 4) ≠ [] := by
      intro hcon
      rw [hcon] at hlen2
      exact absurd hlen2 (by simp)
    split
    · rename_i hneg
      rw [hlen]
      have hpos : (0 : Int) < ((m + 1 : Nat) : Int) := by positivity
      have h0 : 0 ≤ (-|t - ref|) % ((m + 1 : Nat) : Int) := Int.emod_nonneg _ (by omega)
      have hlt : (-|t - ref|) % ((m + 1 : Nat) : Int) < ((m + 1 : Nat) : Int) :=
        Int.emod_lt_of_pos _ hpos
      have hbound : ((-|t - ref|) % ((m + 1 : Nat) : Int)).toNat < m + 1 := by omega
      rw [getD_range_map _ _ _ hbound, getD_range_map _ _ _ hbound]
      exact ⟨((((-|t - ref|) % ((m + 1 : Nat) : Int)).toNat : Nat) : Int), rfl⟩
    · rename_i hnonneg
      split
      · rename_i hin
        have hlt : (t - ref).toNat < m + 1 := by
          rcases hin with ⟨-, hin⟩
          rw [hlen] at hin
          omega
        rw [getD_range_map _ _ _ hlt, getD_range_map _ _ _ hlt]
        exact ⟨((t - ref).toNat : Int), rfl⟩
      · exact ⟨t - ref, rfl⟩

theorem create_monday_closure :
    ∀ (st : Store) (a : MonitoringAssignment) (id : Nat) (st' : Store),
      st.mondayInv → Store.create st a = .ok (id, st') → st'.mondayInv :=
  fun _ _ _ _ h hc => create_pres_monday h hc

set_option maxRecDepth 4000 in
/-- Claim C1: the spec asserts that for every date strictly before the
reference date `get_assignments_for_date` returns the true-modulo EM slot
`((daysBetween mod 4) + 4) mod 4`, so one day before the reference the EM
slot would be 3.  The code instead indexes the stored 365-entry table at
`-days_diff % 365`, and since 365 is not a multiple of 4 the day before
reference 2024-01-01 (with the tables `save` auto-generates) yields EM
slot 0, not the 3 the claimed formula demands. -/
theorem C1_backward_slot_code_bug :
    patternC1.get_assignments_for_date 19722 = (0, 3) ∧
    (((19722 - 19723 : Int) % 4) + 4) % 4 = 3 := by
  constructor
  · decide
  · decide

/-- Claim C2: the spec asserts that `approve_swap` on a pending request
with its original assignment present creates a CONFIRMED reciprocal
assignment with the same date, kind and window.  That INSERT carries the
same `(date, monitoring_type)` key as the still-present original row, so
the model's own `unique_together` constraint rejects it: on this pending
request the operation aborts with the duplicate-key error before any
write, and the claimed effect never happens. -/
theorem C2_approve_swap_code_bug :
    reqC2.status = SwapStatus.PENDING ∧
    stC2.find reqC2.original_assignment = some a0.save ∧
    reqC2.approve_swap stC2 3 555 = .error SwapError.duplicateKey ∧
    swapResultStore stC2 (reqC2.approve_swap stC2 3 555) = stC2 := by
  refine ⟨rfl, by decide, by rfl, by rfl⟩

/-- Claim C3: at most one assignment exists per `(date, monitoring kind)`
key.  A second `create` with a key already present is rejected with the
duplicate-key error (and, `create` being pure on failure, the store keeps
only the first row unchanged), and every core operation — `create`,
`generate_schedule`, `approve_swap`, `approve_leave` — preserves the
uniqueness invariant on whatever store it leaves behind. -/
theorem C3_unique_key_invariant
    (st : Store) (a b : MonitoringAssignment)
    (pat : SchedulePattern) (an : List Analyst) (ty : List MonitoringType)
    (s e : Int) (req : ShiftSwapRequest) (ab : Nat) (now : Int)
    (lr : LeaveRequest) (al : Nat) (cov : Option Nat)
    (h : st.uniqueKeys)
    (hdup : st.occupiedKey a.date a.monitoring_type.code = true) :
    st.create a = Except.error StoreError.duplicateKey ∧
    (createResultStore st (st.create b)).uniqueKeys ∧
    (genResultStore st (generate_schedule pat an ty s e st)).uniqueKeys ∧
    (swapResultStore st (req.approve_swap st ab now)).uniqueKeys ∧
    (leaveResultStore st (lr.approve_leave st al cov)).uniqueKeys := by
  refine ⟨?_, ?_, ?_, ?_, ?_⟩
  · simp [Store.create, hdup]
  · cases hcr : st.create b with
    | error e => simpa [createResultStore, hcr] using h
    | ok x =>
      simp only [createResultStore]
      exact create_pres_unique h (show st.create b = .ok (x.1, x.2) by rw [hcr])
  · cases hg : generate_schedule pat an ty s e st with
    | error e => simpa [genResultStore, hg] using h
    | ok x =>
      simp only [genResultStore]
      exact generate_go_pres _ pat an ty create_unique_closure _ _ _ _ _ _ h
        (by rw [← hg]; rfl)
  · exact approve_swap_pres _ create_unique_closure
      (fun st id an hP => save_existing_pres_unique hP id _ (set_analyst_key an)) req st ab now h
  · exact approve_leave_pres _ create_unique_closure
      (fun st id hP => save_existing_pres_unique hP id _ set_cancelled_key) lr st al cov h

/-- Witness for C3 at a concrete store with one EM row: the duplicate
create is rejected and every operation leaves a store with unique keys. -/
theorem C3_unique_key_invariant_witness :
    stC2.create a0 = Except.error StoreError.duplicateKey ∧
    (createResultStore stC2 (stC2.create a0)).uniqueKeys ∧
    (genResultStore stC2 (generate_schedule patC5 [] [] 0 0 stC2)).uniqueKeys ∧
    (swapResultStore stC2 (reqC2.approve_swap stC2 3 555)).uniqueKeys ∧
    (leaveResultStore stC2 (lrC4.approve_leave stC2 9 (some 2))).uniqueKeys :=
  C3_unique_key_invariant stC2 a0 a0 patC5 [] [] 0 0 reqC2 3 555 lrC4 9 (some 2)
    (by unfold Store.uniqueKeys; decide) (by decide)

/-- Claim C4: the spec asserts that approving a pending leave with a
coverage analyst cancels every affected assignment and creates a CONFIRMED
covering assignment for each.  The covering INSERT shares its
`(date, monitoring_type)` key with the affected row itself, so the
`unique_together` constraint rejects it: on this pending request with one
affected assignment the operation aborts with the duplicate-key error,
leaving the store unchanged (nothing cancelled, no coverage created) while
the request was already committed as APPROVED — the claimed effect never
happens. -/
theorem C4_approve_leave_code_bug :
    lrC4.status = LeaveStatus.PENDING ∧
    (lrC4.assess_impact stC2).1 = 1 ∧
    lrC4.approve_leave stC2 9 (some 2) =
      .error (LeaveError.duplicateKey, lrC4after, stC2) := by
  refine ⟨rfl, by decide, by rfl⟩

/-- Claim C5: `generate_schedule` skips any date that already has an
assignment (the rows at such a date are untouched), and a second run over
the same range with no intervening mutation returns zero assignments
created and exactly the same store. -/
theorem C5_generate_idempotent
    (pat : SchedulePattern) (an : List Analyst) (ty : List MonitoringType)
    (s e : Int) (st : Store) (n : Nat) (st' : Store) (d : Int)
    (h : generate_schedule pat an ty s e st = .ok (n, st'))
    (hd : st.occupied d = true) :
    rowsAtDate st' d = rowsAtDate st d ∧
    generate_schedule pat an ty s e st' = .ok (0, st') := by
  constructor
  · exact generate_go_rowsAt pat an ty d _ _ _ _ _ _ hd h
  · unfold generate_schedule at h ⊢
    exact generate_go_skip_all pat an ty _ _ _ _
      (fun i hi => generate_go_occupied pat an ty _ _ _ _ _ _ h i hi)

/-- Witness for C5: generating days 19723-19724 over a store already
populated at 19723 leaves that date's rows unchanged, and the second run
creates zero assignments and returns the same store. -/
theorem C5_generate_idempotent_witness :
    rowsAtDate st1C5 19723 = rowsAtDate st0C5 19723 ∧
    generate_schedule patC5 anC5 tyC5 19723 19724 st1C5 = .ok (0, st1C5) :=
  C5_generate_idempotent patC5 anC5 tyC5 19723 19724 st0C5 2 st1C5 19723 (by rfl) (by rfl)

/-- Claim C6: for every date (before the reference, inside the stored
table, or beyond it), the DM slot returned by `get_assignments_for_date`
equals `(EM slot + 3) mod 4`, provided the stored tables were produced by
`generate_pattern_sequence`. -/
theorem C6_dm_slot_offset (ref : Int) (days : Nat) (t : Int) :
    ((patternOf ref days).get_assignments_for_date t).2 =
      (((patternOf ref days).get_assignments_for_date t).1 + 3) % 4 := by
  obtain ⟨k, hk⟩ := get_assignments_patternOf ref days t
  rw [hk]

/-- Claim C7: for the EM kind (17:00 to 07:00, Monday start pushed back 58
hours), the window computed for Monday 2024-01-08 (day 19730) starts at
Saturday 2024-01-06 07:00 (day 19728) — 58 hours before the nominal Monday
17:00 start — and the assignment saved with that window has duration over
14 hours and `is_extended_window` true. -/
theorem C7_monday_window :
    emT.get_time_window_for_date 19730 = (combine 19728 7 0, combine 19730 7 0) ∧
    combine 19730 17 0 - (emT.get_time_window_for_date 19730).1 = 58 * 60 ∧
    assignC7.save.duration_hours > 1400 ∧
    assignC7.save.is_extended_window = true := by
  refine ⟨by decide, by decide, by decide, by decide⟩

/-- Counterexample to claim C8 as stated: `save` only sets
`is_extended_window` for Monday assignments, so this saved Tuesday EM
assignment has a computed duration of 20 hours — over the 14-hour EM
threshold — yet its `is_extended_window` stays false. -/
theorem C8_threshold_counterexample :
    aC8.save.monitoring_type.code = MTCode.EM ∧
    aC8.save.duration_hours > 1400 ∧
    aC8.save.is_extended_window = false := by
  refine ⟨rfl, by decide, by decide⟩

/-- Claim C8 as amended: for every saved assignment whose date is a
Monday, `is_extended_window` is true when the computed duration exceeds
the kind-specific threshold — 14 hours (1400 hundredths) for EM and 24
hours (2400 hundredths) for DM. -/
theorem C8_threshold_monday (a : MonitoringAssignment) (h : weekday a.date = 0) :
    (a.save.monitoring_type.code = MTCode.EM → a.save.duration_hours > 1400 →
      a.save.is_extended_window = true) ∧
    (a.save.monitoring_type.code = MTCode.DM → a.save.duration_hours > 2400 →
      a.save.is_extended_window = true) := by
  have hm : (weekday a.date == 0) = true := by simp [h]
  cases hws : a.window_start with
  | none =>
    simp only [MonitoringAssignment.save, hws]
    rw [hm]
    simp only [if_true]
    split
    · rename_i hEM
      exact ⟨fun _ _ => rfl, fun _ _ => rfl⟩
    · split
      · rename_i hEM hDM
        exact ⟨fun _ _ => rfl, fun _ _ => rfl⟩
      · rename_i hEM hDM
        exact ⟨fun hc hd => absurd ⟨hc, hd⟩ hEM, fun hc hd => absurd ⟨hc, hd⟩ hDM⟩
  | some ws =>
    cases hwe : a.window_end with
    | none =>
      simp only [MonitoringAssignment.save, hws, hwe]
      rw [hm]
      simp only [if_true]
      split
      · exact ⟨fun _ _ => rfl, fun _ _ => rfl⟩
      · split
        · exact ⟨fun _ _ => rfl, fun _ _ => rfl⟩
        · rename_i hEM hDM
          exact ⟨fun hc hd => absurd ⟨hc, hd⟩ hEM, fun hc hd => absurd ⟨hc, hd⟩ hDM⟩
    | some we =>
      simp only [MonitoringAssignment.save, hws, hwe]
      rw [hm]
      simp only [if_true]
      split
      · exact ⟨fun _ _ => rfl, fun _ _ => rfl⟩
      · split
        · exact ⟨fun _ _ => rfl, fun _ _ => rfl⟩
        · rename_i hEM hDM
          exact ⟨fun hc hd => absurd ⟨hc, hd⟩ hEM, fun hc hd => absurd ⟨hc, hd⟩ hDM⟩

/-- Witness for the amended C8 at the Monday assignment of claim C7. -/
theorem C8_threshold_monday_witness :
    (assignC7.save.monitoring_type.code = MTCode.EM →
      assignC7.save.duration_hours > 1400 →
      assignC7.save.is_extended_window = true) ∧
    (assignC7.save.monitoring_type.code = MTCode.DM →
      assignC7.save.duration_hours > 2400 →
      assignC7.save.is_extended_window = true) :=
  C8_threshold_monday assignC7 (by decide)

/-- Claim C9: `approve_swap` on a request whose status is not PENDING
fails with the not-pending state error before any write: no reciprocal
assignment is created, no assignment is modified, and the resulting store
is the one passed in. -/
theorem C9_nonpending_swap_rejected (req : ShiftSwapRequest) (st : Store)
    (ab : Nat) (now : Int) (h : req.status ≠ SwapStatus.PENDING) :
    req.approve_swap st ab now = .error .notPending ∧
    swapResultStore st (req.approve_swap st ab now) = st := by
  have h1 : req.approve_swap st ab now = .error .notPending := by
    unfold ShiftSwapRequest.approve_swap
    rw [if_pos h]
  exact ⟨h1, by rw [h1]; rfl⟩

/-- Witness for C9 at an already-approved request. -/
theorem C9_nonpending_swap_rejected_witness :
    reqC9.approve_swap stC2 3 555 = .error .notPending ∧
    swapResultStore stC2 (reqC9.approve_swap stC2 3 555) = stC2 :=
  C9_nonpending_swap_rejected reqC9 stC2 3 555 (by decide)

/-- Claim C10: `save` recomputes `is_monday_assignment` from the date on
every save, regardless of the value supplied, so the flag of a saved
assignment is true exactly on Mondays; and every store-writing path —
`create`, `save_existing`, `generate_schedule`, `approve_swap`,
`approve_leave` — preserves the invariant that every stored row's flag
matches its date. -/
theorem C10_monday_flag_recomputed
    (a b : MonitoringAssignment) (st st1 : Store) (i id : Nat)
    (f : MonitoringAssignment → MonitoringAssignment)
    (pat : SchedulePattern) (an : List Analyst) (ty : List MonitoringType)
    (s e : Int) (req : ShiftSwapRequest) (ab : Nat) (now : Int)
    (lr : LeaveRequest) (al : Nat) (cov : Option Nat)
    (hinv : st.mondayInv) (hcb : st.create b = .ok (id, st1)) :
    (a.save.is_monday_assignment = true ↔ weekday a.date = 0) ∧
    st1.mondayInv ∧
    (st.save_existing i f).mondayInv ∧
    (genResultStore st (generate_schedule pat an ty s e st)).mondayInv ∧
    (swapResultStore st (req.approve_swap st ab now)).mondayInv ∧
    (leaveResultStore st (lr.approve_leave st al cov)).mondayInv := by
  refine ⟨?_, create_pres_monday hinv hcb, save_existing_pres_monday hinv i f, ?_, ?_, ?_⟩
  · have := MonitoringAssignment.save_monday_iff a
    rwa [MonitoringAssignment.save_date] at this
  · cases hg : generate_schedule pat an ty s e st with
    | error e => simpa [genResultStore, hg] using hinv
    | ok x =>
      simp only [genResultStore]
      exact generate_go_pres _ pat an ty create_monday_closure _ _ _ _ _ _ hinv
        (by rw [← hg]; rfl)
  · exact approve_swap_pres _ create_monday_closure
      (fun st i an hP => save_existing_pres_monday hP i _) req st ab now hinv
  · exact approve_leave_pres _ create_monday_closure
      (fun st i hP => save_existing_pres_monday hP i _) lr st al cov hinv

/-- Witness for C10: the Tuesday assignment saved with a stale true flag
comes out false, and each operation keeps the invariant on concrete
stores. -/
theorem C10_monday_flag_recomputed_witness :
    (a0.save.is_monday_assignment = true ↔ weekday a0.date = 0) ∧
    stC10.mondayInv ∧
    (stEmpty.save_existing 0 (set_analyst 7)).mondayInv ∧
    (genResultStore stEmpty (generate_schedule patC5 [] [] 0 0 stEmpty)).mondayInv ∧
    (swapResultStore stEmpty (reqC9.approve_swap stEmpty 3 555)).mondayInv ∧
    (leaveResultStore stEmpty (lrC4.approve_leave stEmpty 9 (some 2))).mondayInv :=
  C10_monday_flag_recomputed a0 a0 stEmpty stC10 0 0 (set_analyst 7) patC5 [] [] 0 0
    reqC9 3 555 lrC4 9 (some 2) (by unfold Store.mondayInv; decide) (by rfl)
